import Mathlib

/-!
Verification development for the NCMW Learning Navigator chatbot backend.

The development shallowly embeds the algorithmic core of the repository:

* `src/backend/lambda/functions/document-processor/index.py` — the chunker
  (`chunk_text`), and the indexing loop (`index_chunks`) over an
  association-list model of the OpenSearch index (upsert keyed by document id).
* `src/backend/lambda/functions/chat/index.py` — the chat `handler`,
  `search_relevant_documents`, `generate_embedding`, `build_system_prompt`,
  `generate_fallback_response` and `save_to_dynamodb`, with external calls
  (Bedrock, OpenSearch, DynamoDB) modelled by explicit outcome parameters.

Python strings are modelled as `List Char`; Python slice indexing, `str.rfind`
and `str.strip` are embedded with their Python semantics (negative indices,
clamping, `-1` for a missed find).  The Python `while` loop of `chunk_text` is
embedded with explicit fuel, since for some parameter choices the source loop
does not terminate; a run of the source loop corresponds to a `some` result for
sufficiently large fuel.
-/

namespace DocProcessor

/-- Python index clamping for a slice bound `i` over a string of length `n`:
negative indices count from the end, and the result is clamped to `[0, n]`. -/
def pyIndex (n : Nat) (i : Int) : Nat :=
  if i < 0 then ((n : Int) + i).toNat else min i.toNat n

/-- Python slice `s[a:b]`. -/
def pySlice (s : List Char) (a b : Int) : List Char :=
  (s.take (pyIndex s.length b)).drop (pyIndex s.length a)

/-- Auxiliary recursion for `rfind`: `i` is the index of the head of `s` in the
original string, `acc` the best (rightmost) hit so far (`-1` when none). -/
def rfindAux (c : Char) : List Char → Nat → Int → Int
  | [], _, acc => acc
  | x :: xs, i, acc => rfindAux c xs (i + 1) (if x = c then (i : Int) else acc)

/-- Python `s.rfind(c)`: index of the last occurrence of `c`, or `-1`. -/
def rfind (s : List Char) (c : Char) : Int :=
  rfindAux c s 0 (-1)

/-- Python whitespace test used by `str.strip()` (ASCII range). -/
def pyIsSpace (c : Char) : Bool :=
  c = ' ' || c = '\t' || c = '\n' || c = '\r' || c = Char.ofNat 11 || c = Char.ofNat 12

/-- Python `s.strip()`. -/
def pyStrip (s : List Char) : List Char :=
  ((s.dropWhile pyIsSpace).reverse.dropWhile pyIsSpace).reverse

/-- One chunk record produced by `chunk_text`
(`{'chunk_id': …, 'text': …, 'start_pos': …, 'end_pos': …}`). -/
structure Chunk where
  chunk_id : Nat
  text : List Char
  start_pos : Int
  end_pos : Int
deriving DecidableEq, Repr

/-- The end position of the current window after the boundary snap of
`chunk_text`: the raw edge is `start + chunk_size`; when that edge falls before
the end of the text and the last sentence/line boundary of the window sits past
half the window, the edge is snapped back to just after that boundary. -/
def snapEnd (text : List Char) (chunk_size start : Int) : Int :=
  let n : Int := text.length
  let end0 := start + chunk_size
  if end0 < n then
    let chunk0 := pySlice text start end0
    let boundary := max (rfind chunk0 '.') (rfind chunk0 '\n')
    if Int.fdiv chunk_size 2 < boundary then start + boundary + 1 else end0
  else end0

/-- One iteration of the `chunk_text` loop body: the produced chunk record and
the next value of `start` (`end - overlap`). -/
def chunkStep (text : List Char) (chunk_size overlap start : Int) (cid : Nat) :
    Chunk × Int :=
  let e := snapEnd text chunk_size start
  ({ chunk_id := cid, text := pyStrip (pySlice text start e),
     start_pos := start, end_pos := e }, e - overlap)

/-- The `while start < len(text)` loop of `chunk_text`, with explicit fuel:
`none` means the fuel ran out before the loop exited. -/
def chunkTextLoop (text : List Char) (chunk_size overlap : Int) :
    Nat → Int → Nat → Option (List Chunk)
  | 0, _, _ => none
  | fuel + 1, start, cid =>
    if start < (text.length : Int) then
      let st := chunkStep text chunk_size overlap start cid
      match chunkTextLoop text chunk_size overlap fuel st.2 (cid + 1) with
      | none => none
      | some rest => some (st.1 :: rest)
    else
      some []

/-- `chunk_text(text, chunk_size, overlap)` with explicit fuel. -/
def chunk_text (text : List Char) (chunk_size overlap : Int) (fuel : Nat) :
    Option (List Chunk) :=
  chunkTextLoop text chunk_size overlap fuel 0 0

/-- The chunking loop diverges on these inputs: no fuel suffices. -/
def chunkTextDiverges (text : List Char) (chunk_size overlap : Int) : Prop :=
  ∀ fuel, chunk_text text chunk_size overlap fuel = none

/-- The chunk ordinals of `l` are `k, k+1, k+2, …`. -/
def idsContiguous : Nat → List Chunk → Bool
  | _, [] => true
  | k, c :: rest => c.chunk_id == k && idsContiguous (k + 1) rest

/-- `p` holds for every pair of consecutive chunks of the list. -/
def adjacentOK (p : Chunk → Chunk → Bool) : List Chunk → Bool
  | [] => true
  | [_] => true
  | a :: b :: rest => p a b && adjacentOK p (b :: rest)

/-- The first chunk (if any) starts at offset 0. -/
def firstStartZero : List Chunk → Bool
  | [] => true
  | c :: _ => c.start_pos == 0

/-- The last chunk (if any) ends at or past position `n`. -/
def lastEndGe (n : Int) : List Chunk → Bool
  | [] => true
  | [c] => decide (n ≤ c.end_pos)
  | _ :: rest => lastEndGe n rest

/-- All the sequence invariants claimed for a terminated chunking run: chunk
ordinals contiguous from 0, strictly increasing start offsets, no coverage gaps
(`start_{i+1} ≤ end_i`), every chunk ending strictly past the previous chunk's
start, every span non-degenerate, full coverage from offset 0 to the text
length. -/
def chunkInvariants (n : Int) (o : Option (List Chunk)) : Bool :=
  match o with
  | none => false
  | some l =>
    idsContiguous 0 l &&
    adjacentOK (fun a b => decide (a.start_pos < b.start_pos)) l &&
    adjacentOK (fun a b => decide (b.start_pos ≤ a.end_pos)) l &&
    adjacentOK (fun a b => decide (a.start_pos < b.end_pos)) l &&
    l.all (fun c => decide (c.start_pos < c.end_pos)) &&
    firstStartZero l && lastEndGe n l

/-- The graph of the `chunk_text` loop: `ChunkRun start cid l` holds when the
loop started at `start` with next ordinal `cid` runs to completion producing
exactly the chunks `l`. -/
inductive ChunkRun (text : List Char) (cs ov : Int) : Int → Nat → List Chunk → Prop where
  | done {start : Int} {cid : Nat} (h : (text.length : Int) ≤ start) :
      ChunkRun text cs ov start cid []
  | step {start : Int} {cid : Nat} {l : List Chunk}
      (h : start < (text.length : Int))
      (hrec : ChunkRun text cs ov (chunkStep text cs ov start cid).2 (cid + 1) l) :
      ChunkRun text cs ov start cid ((chunkStep text cs ov start cid).1 :: l)

/-! ### Indexing (`index_chunks`)

The OpenSearch index is modelled as an association list from document ids to
entries; `opensearch_client.index(index=…, id=doc_id, body=document)` has
upsert semantics keyed by the id (overwrite when present, append otherwise).
The MD5 hash and the Titan embedding call are external library functions; they
are modelled as explicit function parameters (`md5`, `embed`), which captures
exactly what the source relies on: each is a deterministic function of its
input string.  `indexed_at` is the wall-clock timestamp, passed in as `now`. -/

/-- One OpenSearch document as built by `index_chunks`. -/
structure IndexEntry where
  source_bucket : String
  source_key : String
  chunk_id : Nat
  text : List Char
  embedding : List Int
  start_pos : Int
  end_pos : Int
  indexed_at : String
  text_length : Nat
deriving DecidableEq, Repr

/-- The index state: id ↦ entry, in insertion order. -/
abbrev Index := List (String × IndexEntry)

/-- The ids present in the index, in insertion order. -/
def keysOf (st : Index) : List String := st.map Prod.fst

/-- OpenSearch `index(id=k, body=v)`: overwrite the entry stored under `k`, or
append a fresh one. -/
def upsertEntry (st : Index) (k : String) (v : IndexEntry) : Index :=
  if k ∈ keysOf st then st.map (fun p => if p.1 = k then (k, v) else p)
  else st ++ [(k, v)]

/-- `doc_id = hashlib.md5(f"{bucket}/{key}/{chunk_id}").hexdigest()`. -/
def doc_id (md5 : String → String) (bucket key : String) (cid : Nat) : String :=
  md5 (bucket ++ "/" ++ key ++ "/" ++ toString cid)

/-- The document body built for one chunk. -/
def chunkDocument (embed : List Char → List Int) (now bucket key : String)
    (c : Chunk) : IndexEntry :=
  { source_bucket := bucket, source_key := key, chunk_id := c.chunk_id,
    text := c.text, embedding := embed c.text, start_pos := c.start_pos,
    end_pos := c.end_pos, indexed_at := now, text_length := c.text.length }

/-- `index_chunks(bucket, key, chunks)`: embed and upsert every chunk in
order; returns the new index state and the `indexed_count`. -/
def index_chunks (md5 : String → String) (embed : List Char → List Int)
    (now bucket key : String) : List Chunk → Index → Index × Nat
  | [], st => (st, 0)
  | c :: cs, st =>
    let st' := upsertEntry st (doc_id md5 bucket key c.chunk_id)
      (chunkDocument embed now bucket key c)
    let r := index_chunks md5 embed now bucket key cs st'
    (r.1, r.2 + 1)

end DocProcessor

namespace Chat

/-!
Embedding of `src/backend/lambda/functions/chat/index.py`.

External effects are modelled by explicit outcome parameters: the OpenSearch
k-NN search (`Retrieval` / `SearchCall`), the Bedrock generation call
(`GenCall`), the two DynamoDB `put_item` calls (`savePut1`, `savePut2`), the
Titan embedding call (`EmbedCall`) and the freshly generated UUID
(`newConvId`).  A `raises` outcome stands for the callee throwing any
exception at that point.  The handler itself is a total function: the source
catches every exception from retrieval, generation and persistence, which is
exactly what the theorems below express.
-/

/-- One OpenSearch hit as consumed by `search_relevant_documents`. -/
structure Hit where
  text : String
  source_key : String
  chunk_id : Nat
  score : Int
deriving DecidableEq, Repr

/-- One citation record (`{'source': …, 'chunk_id': …, 'score': …}`). -/
structure SourceRef where
  source : String
  chunk_id : Nat
  score : Int
deriving DecidableEq, Repr

/-- Outcome of `opensearch_client.search` inside
`search_relevant_documents`'s inner `try`. -/
inductive SearchCall where
  | raises
  | ok (hits : List Hit)
deriving DecidableEq, Repr

/-- `search_relevant_documents`: a raised search yields `([], [])` (caught by
the inner `except`); otherwise the hits are mapped to context texts and
citation records. -/
def search_relevant_documents (call : SearchCall) : List String × List SourceRef :=
  match call with
  | SearchCall.raises => ([], [])
  | SearchCall.ok hits =>
      (hits.map Hit.text,
       hits.map fun h => { source := h.source_key, chunk_id := h.chunk_id, score := h.score })

/-- Retrieval as seen by the handler: OpenSearch may be unavailable
(the module failed to import or no endpoint is configured), the call may raise
before the inner `try` (caught by the handler's own `except`), or the search
call runs. -/
inductive Retrieval where
  | unavailable
  | clientRaises
  | call (c : SearchCall)
deriving DecidableEq, Repr

/-- The `context_docs, sources` the handler ends up with. -/
def retrieve : Retrieval → List String × List SourceRef
  | Retrieval.unavailable => ([], [])
  | Retrieval.clientRaises => ([], [])
  | Retrieval.call c => search_relevant_documents c

/-- Outcome of `query_bedrock_with_rag` (a successful call returns Claude's
text, including the apology text for empty content blocks). -/
inductive GenCall where
  | raises
  | ok (m : String)
deriving DecidableEq, Repr

/-- Outcome of the Titan `invoke_model` call in `generate_embedding`:
raise, parse to a body without an `embedding` field, or return a vector. -/
inductive EmbedCall where
  | raises
  | malformed
  | ok (v : List Int)
deriving DecidableEq, Repr

/-- The text actually sent to the embedding model: the input truncated to its
first 8000 characters. -/
def embedding_input (text : List Char) : List Char :=
  if text.length > 8000 then text.take 8000 else text

/-- `generate_embedding` (chat variant): all failures are caught and mapped to
the empty vector; a response without an `embedding` field defaults to `[]`. -/
def generate_embedding (invoke : List Char → EmbedCall) (text : List Char) : List Int :=
  match invoke (embedding_input text) with
  | EmbedCall.raises => []
  | EmbedCall.malformed => []
  | EmbedCall.ok v => v

def base_prompt : String :=
  "You are Learning Navigator, an AI assistant for the Mental Health First Aid (MHFA) program by The National Council for Mental Wellbeing.\n\nYour purpose is to help users by providing accurate information about MHFA courses, resources, and operational guidance.\n\nGuidelines:\n- Be helpful, professional, and empathetic\n- Provide clear and concise answers\n- If you don\x27t know something, say so honestly\n- For sensitive topics, recommend contacting support\n- Always maintain confidentiality and privacy"

def rag_guidance : String :=
  "\n- When answering, prioritize information from the provided documents\n- Cite which document(s) you\x27re referencing (e.g., \"According to Document 1...\")\n- If documents conflict, acknowledge the discrepancy\n- If documents are insufficient, say so and provide general guidance"

def instructor_guidance : String :=
  "\n\nYour current user is an MHFA Instructor. Focus on:\n- Course scheduling and logistics\n- Invoicing and payment questions\n- Teaching resources and materials\n- Certification and recertification information\n- Technical support for the learning platform"

def staff_guidance : String :=
  "\n\nYour current user is Internal Staff. Focus on:\n- Operational processes and procedures\n- System troubleshooting and support\n- Administrative guidance\n- Organizational policies\n- Interdepartmental coordination"

def admin_guidance : String :=
  "\n\nYour current user is an Administrator. Focus on:\n- System analytics and reporting\n- User management and permissions\n- Strategic planning support\n- Platform configuration\n- High-level operational oversight"

def default_guidance : String :=
  "\n\nYour current user is a general user. Provide:\n- General MHFA information\n- Course availability\n- Basic support\n- Guidance on getting started"

/-- `build_system_prompt`: RAG guidance is appended when context exists, then
exactly one role guidance block chosen by the `if/elif` chain on the user's
Cognito groups. -/
def build_system_prompt (user_groups : List String) (context_docs : List String) : String :=
  let bp := if context_docs = [] then base_prompt else base_prompt ++ rag_guidance
  let role_g :=
    if user_groups.contains "instructors" then instructor_guidance
    else if user_groups.contains "staff" then staff_guidance
    else if user_groups.contains "admins" then admin_guidance
    else default_guidance
  bp ++ role_g

/-- The role salutation chosen by `generate_fallback_response`'s conditional
chain. -/
def fallback_role (user_groups : List String) : String :=
  if user_groups.contains "instructors" then "Instructor"
  else if user_groups.contains "staff" then "Staff Member"
  else if user_groups.contains "admins" then "Admin"
  else "there"

/-- `generate_fallback_response`: the deterministic fallback sentence used
when the Bedrock call fails.  (The `message` argument exists in the source but
is unused, so the result depends only on the group set.) -/
def generate_fallback_response (_message : String) (user_groups : List String) : String :=
  let role := fallback_role user_groups
  "Hello" ++ (if role ≠ "there" then " " ++ role else "") ++
    "! I received your message but I\x27m experiencing technical difficulties connecting to my AI service. Please try again in a moment. If the issue persists, contact support."

/-- `save_to_dynamodb`: skipped without a table name; otherwise two
`put_item` calls in sequence, the whole call raising (`false`) as soon as one
of them raises. -/
def save_to_dynamodb (tableSet put1 put2 : Bool) : Bool :=
  if !tableSet then true
  else if !put1 then false
  else put2

/-- The parsed chat request: message text (`''` models a missing field),
optional conversation id, and the Cognito group list from the authorizer
claims. -/
structure ChatRequest where
  message : String
  conversation_id : Option String
  groups : List String
deriving DecidableEq, Repr

/-- Outcomes of all external calls the handler makes, plus the environment
flag for the conversation table and the freshly drawn UUID. -/
structure Effects where
  retrieval : Retrieval
  gen : GenCall
  tableSet : Bool
  savePut1 : Bool
  savePut2 : Bool
  newConvId : String
deriving DecidableEq, Repr

/-- The success body of the API Gateway response. -/
structure ChatOk where
  conversation_id : String
  message : String
  sources : List SourceRef
  rag_enabled : Bool
deriving DecidableEq, Repr

/-- The handler's API Gateway response: an error response with a status code,
or a 200 with the chat body. -/
inductive ChatResult where
  | err (statusCode : Nat) (error : String)
  | ok (body : ChatOk)
deriving DecidableEq, Repr

def statusOf : ChatResult → Nat
  | ChatResult.err s _ => s
  | ChatResult.ok _ => 200

def messageOf : ChatResult → Option String
  | ChatResult.err _ _ => none
  | ChatResult.ok b => some b.message

def sourcesOf : ChatResult → Option (List SourceRef)
  | ChatResult.err _ _ => none
  | ChatResult.ok b => some b.sources

def ragOf : ChatResult → Option Bool
  | ChatResult.err _ _ => none
  | ChatResult.ok b => some b.rag_enabled

def convOf : ChatResult → Option String
  | ChatResult.err _ _ => none
  | ChatResult.ok b => some b.conversation_id

/-- The chat `handler`: validate the message, fix the conversation id,
retrieve (failures degrade to no context), generate (failures degrade to the
fallback sentence), persist (failures ignored), respond with 200. -/
def handler (req : ChatRequest) (fx : Effects) : ChatResult :=
  if req.message = "" then ChatResult.err 400 "Message is required"
  else
    let conversation_id :=
      match req.conversation_id with
      | none => fx.newConvId
      | some c => if c = "" then fx.newConvId else c
    let rs := retrieve fx.retrieval
    let assistant_message :=
      match fx.gen with
      | GenCall.ok m => m
      | GenCall.raises => generate_fallback_response req.message req.groups
    let _saved := save_to_dynamodb fx.tableSet fx.savePut1 fx.savePut2
    ChatResult.ok ⟨conversation_id, assistant_message, rs.2, decide (0 < rs.1.length)⟩

/-- The role enumeration underlying both conditional chains. -/
inductive Role where
  | instructor
  | staff
  | admin
  | generic
deriving DecidableEq, Repr

/-- Role selection with the source's fixed precedence:
instructors, then staff, then admins, then the generic default. -/
def roleOf (user_groups : List String) : Role :=
  if user_groups.contains "instructors" then Role.instructor
  else if user_groups.contains "staff" then Role.staff
  else if user_groups.contains "admins" then Role.admin
  else Role.generic

/-- The role-guidance block of the system prompt, per role. -/
def role_guidance : Role → String
  | Role.instructor => instructor_guidance
  | Role.staff => staff_guidance
  | Role.admin => admin_guidance
  | Role.generic => default_guidance

/-- The fallback salutation, per role. -/
def fallback_role_name : Role → String
  | Role.instructor => "Instructor"
  | Role.staff => "Staff Member"
  | Role.admin => "Admin"
  | Role.generic => "there"

end Chat

namespace DocProcessor

/-- `(chunkStep …).2` is the snapped end minus the overlap. -/
@[simp] lemma chunkStep_snd (text : List Char) (cs ov start : Int) (cid : Nat) :
    (chunkStep text cs ov start cid).2 = snapEnd text cs start - ov := rfl

@[simp] lemma chunkStep_fst_id (text : List Char) (cs ov start : Int) (cid : Nat) :
    (chunkStep text cs ov start cid).1.chunk_id = cid := rfl

@[simp] lemma chunkStep_fst_start (text : List Char) (cs ov start : Int) (cid : Nat) :
    (chunkStep text cs ov start cid).1.start_pos = start := rfl

@[simp] lemma chunkStep_fst_end (text : List Char) (cs ov start : Int) (cid : Nat) :
    (chunkStep text cs ov start cid).1.end_pos = snapEnd text cs start := rfl

/-- When the raw window edge already reaches the end of the text, no snapping
happens. -/
lemma snapEnd_of_ge (text : List Char) (cs start : Int)
    (h : ¬ start + cs < (text.length : Int)) : snapEnd text cs start = start + cs := by
  unfold snapEnd
  simp only [if_neg h]

/-- Under `0 ≤ overlap < chunk_size` and `overlap ≤ chunk_size // 2 + 1`, every
iteration of the chunking loop moves `start` strictly forward. -/
lemma chunkStep_progress (text : List Char) (cs ov start : Int) (cid : Nat)
    (h0 : 0 ≤ ov) (h1 : ov < cs) (h2 : ov ≤ Int.fdiv cs 2 + 1) :
    start + 1 ≤ (chunkStep text cs ov start cid).2 := by
  rw [chunkStep_snd]
  unfold snapEnd
  dsimp only
  split
  · split <;> omega
  · omega

/-- Sufficient fuel bound: the loop returns `some` whenever
`fuel > len(text) - start`, given strict forward progress. -/
lemma chunkTextLoop_terminates (text : List Char) (cs ov : Int)
    (h0 : 0 ≤ ov) (h1 : ov < cs) (h2 : ov ≤ Int.fdiv cs 2 + 1) :
    ∀ fuel start cid, ((text.length : Int) - start).toNat < fuel →
      (chunkTextLoop text cs ov fuel start cid).isSome = true := by
  intro fuel
  induction fuel with
  | zero => intro start cid h; exact absurd h (Nat.not_lt_zero _)
  | succ n ih =>
    intro start cid h
    by_cases hs : start < (text.length : Int)
    · rw [chunkTextLoop, if_pos hs]
      dsimp only
      have hp := chunkStep_progress text cs ov start cid h0 h1 h2
      have hn : ((text.length : Int) - (chunkStep text cs ov start cid).2).toNat < n := by
        omega
      have hrec := ih (chunkStep text cs ov start cid).2 (cid + 1) hn
      cases hcc : chunkTextLoop text cs ov n (chunkStep text cs ov start cid).2 (cid + 1) with
      | none => rw [hcc] at hrec; simp at hrec
      | some rest => rfl
    · rw [chunkTextLoop, if_neg hs]; rfl

/-- C1 (amended): with the additional hypothesis
`overlap ≤ chunk_size // 2 + 1`, each loop iteration strictly advances `start`
and the loop terminates within `len(text) + 1` iterations. -/
theorem chunk_text_terminates (text : List Char) (chunk_size overlap : Int)
    (h0 : 0 ≤ overlap) (h1 : overlap < chunk_size)
    (h2 : overlap ≤ Int.fdiv chunk_size 2 + 1) :
    (∀ start cid, start + 1 ≤ (chunkStep text chunk_size overlap start cid).2) ∧
    (chunk_text text chunk_size overlap (text.length + 1)).isSome = true := by
  refine ⟨fun start cid => chunkStep_progress text chunk_size overlap start cid h0 h1 h2, ?_⟩
  apply chunkTextLoop_terminates text chunk_size overlap h0 h1 h2
  omega

/-- Witness for `chunk_text_terminates` at `chunk_size = 10`, `overlap = 3`,
text `"hello world"`. -/
theorem chunk_text_terminates_witness :
    0 ≤ (3 : Int) ∧ (3 : Int) < 10 ∧ (3 : Int) ≤ Int.fdiv 10 2 + 1 ∧
    0 + 1 ≤ (chunkStep "hello world".toList 10 3 0 0).2 ∧
    (chunk_text "hello world".toList 10 3 ("hello world".toList.length + 1)).isSome = true :=
  ⟨by decide, by decide, by decide,
   (chunk_text_terminates "hello world".toList 10 3 (by decide) (by decide) (by decide)).1 0 0,
   (chunk_text_terminates "hello world".toList 10 3 (by decide) (by decide) (by decide)).2⟩

/-- On `"abcdef.zzzzzzzz"` with `chunk_size = 10`, `overlap = 9`, the loop
cycles through starts `0 → -2 → -1 → 0 → …` and never exits. -/
lemma loopText_cycle :
    ∀ fuel cid, chunkTextLoop "abcdef.zzzzzzzz".toList 10 9 fuel 0 cid = none ∧
      chunkTextLoop "abcdef.zzzzzzzz".toList 10 9 fuel (-2) cid = none ∧
      chunkTextLoop "abcdef.zzzzzzzz".toList 10 9 fuel (-1) cid = none := by
  intro fuel
  induction fuel with
  | zero => exact fun cid => ⟨rfl, rfl, rfl⟩
  | succ n ih =>
    intro cid
    refine ⟨?_, ?_, ?_⟩
    · rw [chunkTextLoop, if_pos (by decide)]
      dsimp only
      rw [chunkStep_snd, show snapEnd "abcdef.zzzzzzzz".toList 10 0 - 9 = -2 by decide,
        (ih (cid + 1)).2.1]
    · rw [chunkTextLoop, if_pos (by decide)]
      dsimp only
      rw [chunkStep_snd, show snapEnd "abcdef.zzzzzzzz".toList 10 (-2) - 9 = -1 by decide,
        (ih (cid + 1)).2.2]
    · rw [chunkTextLoop, if_pos (by decide)]
      dsimp only
      rw [chunkStep_snd, show snapEnd "abcdef.zzzzzzzz".toList 10 (-1) - 9 = 0 by decide,
        (ih (cid + 1)).1]

/-- C1 counterexample: `overlap = 9 < 10 = chunk_size` is a valid parameter
pair by the claim, yet the loop never terminates on `"abcdef.zzzzzzzz"`. -/
theorem chunk_text_diverges_counterexample :
    0 ≤ (9 : Int) ∧ (9 : Int) < 10 ∧ chunkTextDiverges "abcdef.zzzzzzzz".toList 10 9 :=
  ⟨by decide, by decide, fun fuel => (loopText_cycle fuel 0).1⟩

/-- A `some` result of the loop is stable under adding fuel. -/
lemma chunkTextLoop_mono (text : List Char) (cs ov : Int) :
    ∀ fuel fuel' start cid l, fuel ≤ fuel' →
      chunkTextLoop text cs ov fuel start cid = some l →
      chunkTextLoop text cs ov fuel' start cid = some l := by
  intro fuel
  induction fuel with
  | zero => intro fuel' start cid l _ h; simp [chunkTextLoop] at h
  | succ n ih =>
    intro fuel' start cid l hle h
    obtain ⟨m, rfl⟩ : ∃ m, fuel' = m + 1 := ⟨fuel' - 1, by omega⟩
    by_cases hs : start < (text.length : Int)
    · rw [chunkTextLoop, if_pos hs] at h ⊢
      dsimp only at h ⊢
      cases hcc : chunkTextLoop text cs ov n (chunkStep text cs ov start cid).2 (cid + 1) with
      | none => rw [hcc] at h; exact absurd h (by simp)
      | some rest =>
        rw [hcc] at h
        rw [ih m (chunkStep text cs ov start cid).2 (cid + 1) rest (by omega) hcc]
        exact h
    · rw [chunkTextLoop, if_neg hs] at h ⊢
      exact h

/-- A slice `s[0:b]` with `b ≥ len(s)` is the whole string. -/
lemma pySlice_zero_ge (s : List Char) (b : Int) (hb : (s.length : Int) ≤ b) :
    pySlice s 0 b = s := by
  unfold pySlice pyIndex
  have hb0 : ¬ b < 0 := by omega
  have h00 : ¬ (0 : Int) < 0 := by omega
  rw [if_neg hb0, if_neg h00]
  have h1 : min b.toNat s.length = s.length := by omega
  have h2 : min (0 : Int).toNat s.length = 0 := by omega
  rw [h1, h2, List.take_length, List.drop_zero]

/-- C2 (amended): a non-empty text of length at most `chunk_size - overlap`
(rather than merely `< chunk_size`) yields exactly one chunk, whose text is the
stripped input and whose span is `[0, chunk_size)`; the empty text yields zero
chunks. -/
theorem chunk_text_single (text : List Char) (chunk_size overlap : Int) (fuel : Nat)
    (h0 : 0 ≤ overlap) (h1 : overlap < chunk_size) :
    (text ≠ [] → (text.length : Int) ≤ chunk_size - overlap → 2 ≤ fuel →
      chunk_text text chunk_size overlap fuel =
        some [{ chunk_id := 0, text := pyStrip text, start_pos := 0, end_pos := chunk_size }]) ∧
    (1 ≤ fuel → chunk_text [] chunk_size overlap fuel = some []) := by
  constructor
  · intro hne hlen hfuel
    have hn0 : 0 < text.length := List.length_pos.mpr hne
    apply chunkTextLoop_mono text chunk_size overlap 2 fuel 0 0 _ hfuel
    have hnosnap : ¬ (0 : Int) + chunk_size < (text.length : Int) := by omega
    have hsnap : snapEnd text chunk_size 0 = chunk_size := by
      rw [snapEnd_of_ge text chunk_size 0 hnosnap]; omega
    have hstep1 : (chunkStep text chunk_size overlap 0 0).1 =
        { chunk_id := 0, text := pyStrip text, start_pos := 0, end_pos := chunk_size } := by
      show ({ chunk_id := 0, text := pyStrip (pySlice text 0 (snapEnd text chunk_size 0)),
              start_pos := 0, end_pos := snapEnd text chunk_size 0 } : Chunk) = _
      rw [hsnap, pySlice_zero_ge text chunk_size (by omega)]
    have hstep2 : (chunkStep text chunk_size overlap 0 0).2 = chunk_size - overlap := by
      rw [chunkStep_snd, hsnap]
    rw [chunkTextLoop, if_pos (by exact_mod_cast hn0)]
    dsimp only
    rw [hstep2, chunkTextLoop, if_neg (by omega), hstep1]
  · intro hfuel
    obtain ⟨m, rfl⟩ : ∃ m, fuel = m + 1 := ⟨fuel - 1, by omega⟩
    rw [chunk_text, chunkTextLoop, if_neg (by simp)]

/-- Witness for `chunk_text_single` at `"hi mom"`, `chunk_size = 10`,
`overlap = 3`, `fuel = 2`. -/
theorem chunk_text_single_witness :
    "hi mom".toList ≠ [] ∧ ("hi mom".toList.length : Int) ≤ 10 - 3 ∧
    0 ≤ (3 : Int) ∧ (3 : Int) < 10 ∧
    chunk_text "hi mom".toList 10 3 2 =
      some [{ chunk_id := 0, text := pyStrip "hi mom".toList, start_pos := 0, end_pos := 10 }] ∧
    chunk_text [] 10 3 1 = some [] :=
  ⟨by decide, by decide, by decide, by decide,
   (chunk_text_single "hi mom".toList 10 3 2 (by decide) (by decide)).1
     (by decide) (by decide) (by decide),
   (chunk_text_single [] 10 3 1 (by decide) (by decide)).2 (by decide)⟩

/-- C2 counterexample: `"aaaaaaaaa"` has 9 characters, strictly fewer than
`chunk_size = 10`, yet with `overlap = 5` the loop runs twice and returns two
chunks, not one. -/
theorem chunk_text_single_counterexample :
    "aaaaaaaaa".toList ≠ [] ∧ "aaaaaaaaa".toList.length < 10 ∧
    0 ≤ (5 : Int) ∧ (5 : Int) < 10 ∧
    (chunk_text "aaaaaaaaa".toList 10 5 9).map List.length = some 2 :=
  ⟨by decide, by decide, by decide, by decide, by decide⟩

/-- Any `some` result of the fueled loop is a completed run. -/
lemma chunkTextLoop_sound (text : List Char) (cs ov : Int) :
    ∀ fuel start cid l, chunkTextLoop text cs ov fuel start cid = some l →
      ChunkRun text cs ov start cid l := by
  intro fuel
  induction fuel with
  | zero => intro start cid l h; simp [chunkTextLoop] at h
  | succ n ih =>
    intro start cid l h
    by_cases hs : start < (text.length : Int)
    · rw [chunkTextLoop, if_pos hs] at h
      dsimp only at h
      cases hcc : chunkTextLoop text cs ov n (chunkStep text cs ov start cid).2 (cid + 1) with
      | none => rw [hcc] at h; cases h
      | some rest =>
        rw [hcc] at h
        cases h
        exact ChunkRun.step hs (ih _ _ _ hcc)
    · rw [chunkTextLoop, if_neg hs] at h
      cases h
      exact ChunkRun.done (by omega)

/-- The combined invariant, proved along the run. -/
lemma chunkRun_invariants (text : List Char) (cs ov : Int)
    (h0 : 0 ≤ ov) (h1 : ov < cs) (h2 : ov ≤ Int.fdiv cs 2 + 1) :
    ∀ {start : Int} {cid : Nat} {l : List Chunk}, ChunkRun text cs ov start cid l →
      idsContiguous cid l = true ∧
      (∀ c, l.head? = some c → c.start_pos = start) ∧
      adjacentOK (fun a b => decide (a.start_pos < b.start_pos)) l = true ∧
      adjacentOK (fun a b => decide (b.start_pos ≤ a.end_pos)) l = true ∧
      adjacentOK (fun a b => decide (a.start_pos < b.end_pos)) l = true ∧
      (∀ c ∈ l, c.start_pos < c.end_pos) ∧
      lastEndGe (text.length : Int) l = true ∧
      (l = [] → (text.length : Int) ≤ start) := by
  intro start cid l run
  induction run with
  | done h =>
    exact ⟨rfl, by simp, rfl, rfl, rfl, by simp, rfl, fun _ => h⟩
  | @step start cid l h hrec ih =>
    obtain ⟨ih1, ih2, ih3, ih4, ih5, ih6, ih7, ih8⟩ := ih
    have hp := chunkStep_progress text cs ov start cid h0 h1 h2
    have hend : (chunkStep text cs ov start cid).1.end_pos = snapEnd text cs start :=
      chunkStep_fst_end text cs ov start cid
    have hsnd : (chunkStep text cs ov start cid).2 = snapEnd text cs start - ov :=
      chunkStep_snd text cs ov start cid
    refine ⟨?_, ?_, ?_, ?_, ?_, ?_, ?_, ?_⟩
    · simp [idsContiguous, ih1]
    · intro c hc
      simp only [List.head?_cons, Option.some.injEq] at hc
      rw [← hc, chunkStep_fst_start]
    · cases l with
      | nil => rfl
      | cons c' r =>
        have hc' : c'.start_pos = (chunkStep text cs ov start cid).2 := ih2 c' rfl
        simp only [adjacentOK, Bool.and_eq_true, decide_eq_true_eq]
        exact ⟨by rw [chunkStep_fst_start, hc', hsnd]; omega, ih3⟩
    · cases l with
      | nil => rfl
      | cons c' r =>
        have hc' : c'.start_pos = (chunkStep text cs ov start cid).2 := ih2 c' rfl
        simp only [adjacentOK, Bool.and_eq_true, decide_eq_true_eq]
        exact ⟨by rw [hend, hc', hsnd]; omega, ih4⟩
    · cases l with
      | nil => rfl
      | cons c' r =>
        have hc' : c'.start_pos = (chunkStep text cs ov start cid).2 := ih2 c' rfl
        have hc'e : c'.start_pos < c'.end_pos := ih6 c' (List.mem_cons_self c' r)
        simp only [adjacentOK, Bool.and_eq_true, decide_eq_true_eq]
        exact ⟨by rw [chunkStep_fst_start]; rw [hc', hsnd] at hc'e; omega, ih5⟩
    · intro c hc
      rcases List.mem_cons.mp hc with hc | hc
      · subst hc; rw [chunkStep_fst_start, hend]; rw [hsnd] at hp; omega
      · exact ih6 c hc
    · cases l with
      | nil =>
        have := ih8 rfl
        rw [hsnd] at this
        simp only [lastEndGe, decide_eq_true_eq]
        rw [hend]; omega
      | cons c' r => exact ih7
    · intro hcontra; cases hcontra

/-- C3 (amended): with the hypothesis strengthened from `overlap < chunk_size`
to additionally `overlap ≤ chunk_size // 2 + 1` (which rules out the snap-back
moving `start` backwards), the loop terminates and all the claimed sequence
invariants hold; the start offsets are in fact strictly increasing. -/
theorem chunk_text_invariants (text : List Char) (chunk_size overlap : Int)
    (h0 : 0 ≤ overlap) (h1 : overlap < chunk_size)
    (h2 : overlap ≤ Int.fdiv chunk_size 2 + 1) :
    chunkInvariants (text.length : Int)
      (chunk_text text chunk_size overlap (text.length + 1)) = true := by
  have hterm := (chunk_text_terminates text chunk_size overlap h0 h1 h2).2
  obtain ⟨l, hl⟩ := Option.isSome_iff_exists.mp hterm
  have run := chunkTextLoop_sound text chunk_size overlap _ _ _ _ hl
  obtain ⟨p1, p2, p3, p4, p5, p6, p7, _⟩ :=
    chunkRun_invariants text chunk_size overlap h0 h1 h2 run
  rw [chunk_text] at hl
  rw [chunk_text, hl]
  simp only [chunkInvariants, Bool.and_eq_true]
  refine ⟨⟨⟨⟨⟨⟨p1, p3⟩, p4⟩, p5⟩, ?_⟩, ?_⟩, p7⟩
  · simp only [List.all_eq_true, decide_eq_true_eq]
    exact p6
  · cases l with
    | nil => rfl
    | cons c r =>
      simp only [firstStartZero, beq_iff_eq]
      exact p2 c rfl

/-- Witness for `chunk_text_invariants` at `"hello world"`, `chunk_size = 10`,
`overlap = 3`. -/
theorem chunk_text_invariants_witness :
    0 ≤ (3 : Int) ∧ (3 : Int) < 10 ∧ (3 : Int) ≤ Int.fdiv 10 2 + 1 ∧
    chunkInvariants ("hello world".toList.length : Int)
      (chunk_text "hello world".toList 10 3 ("hello world".toList.length + 1)) = true :=
  ⟨by decide, by decide, by decide,
   chunk_text_invariants "hello world".toList 10 3 (by decide) (by decide) (by decide)⟩

/-- C3 counterexample: with `chunk_size = 10`, `overlap = 8` (a valid pair for
the claim) on `"abcdef.hijkl"`, the loop terminates, but the snap-back sends
the second chunk's start to `-1 < 0`: start offsets are not non-decreasing. -/
theorem chunk_text_invariants_counterexample :
    0 ≤ (8 : Int) ∧ (8 : Int) < 10 ∧
    (chunk_text "abcdef.hijkl".toList 10 8 20).isSome = true ∧
    (chunk_text "abcdef.hijkl".toList 10 8 20).map
      (fun l => l.map Chunk.start_pos) = some [0, -1, 1, 3, 5, 7, 9, 11] ∧
    (chunk_text "abcdef.hijkl".toList 10 8 20).map
      (adjacentOK fun a b => decide (a.start_pos ≤ b.start_pos)) = some false :=
  ⟨by decide, by decide, by decide, by decide, by decide⟩

lemma keysOf_upsert (st : Index) (k : String) (v : IndexEntry) :
    keysOf (upsertEntry st k v) = if k ∈ keysOf st then keysOf st else keysOf st ++ [k] := by
  unfold upsertEntry
  split
  · unfold keysOf
    rw [List.map_map]
    apply List.map_congr_left
    intro p _
    by_cases hp : p.1 = k
    · simp [Function.comp, hp]
    · simp [Function.comp, hp]
  · unfold keysOf
    simp

lemma mem_keysOf_upsert_self (st : Index) (k : String) (v : IndexEntry) :
    k ∈ keysOf (upsertEntry st k v) := by
  rw [keysOf_upsert]
  split
  · assumption
  · simp

lemma mem_keysOf_upsert_of_mem (st : Index) (k s : String) (v : IndexEntry)
    (h : s ∈ keysOf st) : s ∈ keysOf (upsertEntry st k v) := by
  rw [keysOf_upsert]
  split
  · exact h
  · simp [h]

lemma mem_keysOf_index_chunks (md5 : String → String) (embed : List Char → List Int)
    (now bucket key : String) :
    ∀ (chunks : List Chunk) (st : Index) (s : String), s ∈ keysOf st →
      s ∈ keysOf (index_chunks md5 embed now bucket key chunks st).1 := by
  intro chunks
  induction chunks with
  | nil => intro st s h; exact h
  | cons c cs ih =>
    intro st s h
    exact ih _ s (mem_keysOf_upsert_of_mem st _ s _ h)

lemma doc_ids_mem_index_chunks (md5 : String → String) (embed : List Char → List Int)
    (now bucket key : String) :
    ∀ (chunks : List Chunk) (st : Index), ∀ c ∈ chunks,
      doc_id md5 bucket key c.chunk_id ∈
        keysOf (index_chunks md5 embed now bucket key chunks st).1 := by
  intro chunks
  induction chunks with
  | nil => intro st c hc; cases hc
  | cons a cs ih =>
    intro st c hc
    rcases List.mem_cons.mp hc with hc | hc
    · subst hc
      exact mem_keysOf_index_chunks md5 embed now bucket key cs _ _
        (mem_keysOf_upsert_self st _ _)
    · exact ih _ c hc

lemma index_chunks_keys_stable (md5 : String → String) (embed : List Char → List Int)
    (now bucket key : String) :
    ∀ (chunks : List Chunk) (st : Index),
      (∀ c ∈ chunks, doc_id md5 bucket key c.chunk_id ∈ keysOf st) →
      keysOf (index_chunks md5 embed now bucket key chunks st).1 = keysOf st := by
  intro chunks
  induction chunks with
  | nil => intro st _; rfl
  | cons a cs ih =>
    intro st hmem
    have ha : doc_id md5 bucket key a.chunk_id ∈ keysOf st :=
      hmem a (List.mem_cons_self a cs)
    have hup : keysOf (upsertEntry st (doc_id md5 bucket key a.chunk_id)
        (chunkDocument embed now bucket key a)) = keysOf st := by
      rw [keysOf_upsert, if_pos ha]
    show keysOf (index_chunks md5 embed now bucket key cs _).1 = keysOf st
    rw [ih _ (fun c hc => by rw [hup]; exact hmem c (List.mem_cons_of_mem a hc)), hup]

/-- C4: re-ingesting the same `(bucket, key)` with the same chunks (even at a
different wall-clock time `now₂`, with the entry id the same deterministic MD5
function of `(bucket, key, chunk ordinal)` both times) leaves the index with
exactly the same ids, in the same order, and the same number of entries as a
single ingestion: the second pass only overwrites. -/
theorem index_chunks_idempotent (md5 : String → String) (embed : List Char → List Int)
    (now1 now2 bucket key : String) (chunks : List Chunk) (st : Index) :
    keysOf (index_chunks md5 embed now2 bucket key chunks
        (index_chunks md5 embed now1 bucket key chunks st).1).1
      = keysOf (index_chunks md5 embed now1 bucket key chunks st).1 ∧
    (index_chunks md5 embed now2 bucket key chunks
        (index_chunks md5 embed now1 bucket key chunks st).1).1.length
      = (index_chunks md5 embed now1 bucket key chunks st).1.length := by
  have hkeys := index_chunks_keys_stable md5 embed now2 bucket key chunks
    (index_chunks md5 embed now1 bucket key chunks st).1
    (fun c hc => doc_ids_mem_index_chunks md5 embed now1 bucket key chunks st c hc)
  refine ⟨hkeys, ?_⟩
  have h1 : ∀ m : Index, m.length = (keysOf m).length := by
    intro m; unfold keysOf; rw [List.length_map]
  rw [h1, h1 (index_chunks md5 embed now1 bucket key chunks st).1, hkeys]

end DocProcessor

namespace Chat

/-- The fallback sentence is never empty, whatever the groups. -/
lemma generate_fallback_response_ne (m : String) (g : List String) :
    generate_fallback_response m g ≠ "" := by
  unfold generate_fallback_response fallback_role
  dsimp only
  split
  · decide
  · split
    · decide
    · split
      · decide
      · decide

/-- C5: if the Bedrock generation call raises, the handler still returns
HTTP 200, and the body's message is the deterministic fallback sentence, which
is non-empty and whose salutation is a function of the group set alone
(instructor / staff / admin / generic precedence). -/
theorem handler_fallback_on_generation_failure (req : ChatRequest) (fx : Effects)
    (hm : req.message ≠ "") (hg : fx.gen = GenCall.raises) :
    statusOf (handler req fx) = 200 ∧
    messageOf (handler req fx) = some (generate_fallback_response req.message req.groups) ∧
    generate_fallback_response req.message req.groups ≠ "" ∧
    fallback_role req.groups = fallback_role_name (roleOf req.groups) := by
  refine ⟨?_, ?_, generate_fallback_response_ne req.message req.groups, ?_⟩
  · unfold handler
    rw [if_neg hm]
    rfl
  · unfold handler
    rw [if_neg hm, hg]
    rfl
  · unfold fallback_role roleOf
    split
    · rfl
    · split
      · rfl
      · split
        · rfl
        · rfl

/-- Witness for `handler_fallback_on_generation_failure`. -/
theorem handler_fallback_witness :
    ("hi" : String) ≠ "" ∧
    statusOf (handler ⟨"hi", none, ["instructors"]⟩
      ⟨Retrieval.unavailable, GenCall.raises, true, true, true, "c1"⟩) = 200 ∧
    messageOf (handler ⟨"hi", none, ["instructors"]⟩
      ⟨Retrieval.unavailable, GenCall.raises, true, true, true, "c1"⟩) =
      some (generate_fallback_response "hi" ["instructors"]) ∧
    generate_fallback_response "hi" ["instructors"] ≠ "" :=
  ⟨by decide,
   (handler_fallback_on_generation_failure ⟨"hi", none, ["instructors"]⟩
     ⟨Retrieval.unavailable, GenCall.raises, true, true, true, "c1"⟩ (by decide) rfl).1,
   (handler_fallback_on_generation_failure ⟨"hi", none, ["instructors"]⟩
     ⟨Retrieval.unavailable, GenCall.raises, true, true, true, "c1"⟩ (by decide) rfl).2.1,
   (handler_fallback_on_generation_failure ⟨"hi", none, ["instructors"]⟩
     ⟨Retrieval.unavailable, GenCall.raises, true, true, true, "c1"⟩ (by decide) rfl).2.2.1⟩

/-- C6: if retrieval fails (the search client raises before the inner `try`,
the search call itself raises, or the index returns no hits — for instance
because it is empty), the handler proceeds with empty context and sources:
the response still has status 200, carries `rag_enabled = false` and
`sources = []`, and its message is whatever generation produced. -/
theorem handler_degrades_on_retrieval_failure (req : ChatRequest) (fx : Effects)
    (hm : req.message ≠ "")
    (hr : fx.retrieval = Retrieval.clientRaises ∨
      fx.retrieval = Retrieval.call SearchCall.raises ∨
      fx.retrieval = Retrieval.call (SearchCall.ok [])) :
    retrieve fx.retrieval = ([], []) ∧
    statusOf (handler req fx) = 200 ∧
    ragOf (handler req fx) = some false ∧
    sourcesOf (handler req fx) = some [] ∧
    messageOf (handler req fx) = some (match fx.gen with
      | GenCall.ok m => m
      | GenCall.raises => generate_fallback_response req.message req.groups) := by
  have hret : retrieve fx.retrieval = ([], []) := by
    rcases hr with h | h | h <;> rw [h] <;> rfl
  refine ⟨hret, ?_, ?_, ?_, ?_⟩ <;> unfold handler <;> rw [if_neg hm, hret] <;> rfl

/-- Witness for `handler_degrades_on_retrieval_failure`. -/
theorem handler_degrades_witness :
    ("hi" : String) ≠ "" ∧
    retrieve (Retrieval.call SearchCall.raises) = ([], []) ∧
    statusOf (handler ⟨"hi", none, []⟩
      ⟨Retrieval.call SearchCall.raises, GenCall.ok "answer", true, true, true, "c2"⟩) = 200 ∧
    ragOf (handler ⟨"hi", none, []⟩
      ⟨Retrieval.call SearchCall.raises, GenCall.ok "answer", true, true, true, "c2"⟩) =
      some false ∧
    sourcesOf (handler ⟨"hi", none, []⟩
      ⟨Retrieval.call SearchCall.raises, GenCall.ok "answer", true, true, true, "c2"⟩) =
      some [] :=
  ⟨by decide,
   (handler_degrades_on_retrieval_failure ⟨"hi", none, []⟩
     ⟨Retrieval.call SearchCall.raises, GenCall.ok "answer", true, true, true, "c2"⟩
     (by decide) (Or.inr (Or.inl rfl))).1,
   (handler_degrades_on_retrieval_failure ⟨"hi", none, []⟩
     ⟨Retrieval.call SearchCall.raises, GenCall.ok "answer", true, true, true, "c2"⟩
     (by decide) (Or.inr (Or.inl rfl))).2.1,
   (handler_degrades_on_retrieval_failure ⟨"hi", none, []⟩
     ⟨Retrieval.call SearchCall.raises, GenCall.ok "answer", true, true, true, "c2"⟩
     (by decide) (Or.inr (Or.inl rfl))).2.2.1,
   (handler_degrades_on_retrieval_failure ⟨"hi", none, []⟩
     ⟨Retrieval.call SearchCall.raises, GenCall.ok "answer", true, true, true, "c2"⟩
     (by decide) (Or.inr (Or.inl rfl))).2.2.2.1⟩

/-- C7 (amended): the handler validates only that the message is non-empty —
an empty or missing message is rejected with a 400 client error, while any
non-empty message, with no upper length bound, is processed and answered with
status 200. -/
theorem handler_validates_only_emptiness (req : ChatRequest) (fx : Effects) :
    (req.message = "" → handler req fx = ChatResult.err 400 "Message is required") ∧
    (req.message ≠ "" → statusOf (handler req fx) = 200) := by
  constructor
  · intro h
    unfold handler
    rw [if_pos h]
  · intro h
    unfold handler
    rw [if_neg h]
    rfl

/-- Witness for `handler_validates_only_emptiness`. -/
theorem handler_validates_only_emptiness_witness :
    ("" : String) = "" ∧
    handler ⟨"", none, []⟩
      ⟨Retrieval.unavailable, GenCall.ok "x", false, true, true, "c3"⟩ =
      ChatResult.err 400 "Message is required" ∧
    ("hi" : String) ≠ "" ∧
    statusOf (handler ⟨"hi", none, []⟩
      ⟨Retrieval.unavailable, GenCall.ok "x", false, true, true, "c3"⟩) = 200 :=
  ⟨rfl,
   (handler_validates_only_emptiness ⟨"", none, []⟩
     ⟨Retrieval.unavailable, GenCall.ok "x", false, true, true, "c3"⟩).1 rfl,
   by decide,
   (handler_validates_only_emptiness ⟨"hi", none, []⟩
     ⟨Retrieval.unavailable, GenCall.ok "x", false, true, true, "c3"⟩).2 (by decide)⟩

/-- C7 counterexample: the claimed 5000-character cap does not exist in the
code — a request whose message has 5001 characters is processed and answered
with status 200, not rejected. -/
theorem handler_no_length_cap_counterexample :
    (String.mk (List.replicate 5001 'a')).length = 5001 ∧
    statusOf (handler ⟨String.mk (List.replicate 5001 'a'), none, []⟩
      ⟨Retrieval.unavailable, GenCall.ok "ok", false, true, true, "c4"⟩) = 200 := by
  constructor
  · show (String.mk (List.replicate 5001 'a')).data.length = 5001
    rw [List.length_replicate]
  · rfl

/-- C8: a failing conversation-store write is swallowed: whatever the
outcomes of the two `put_item` calls, the handler returns exactly the same
response (same status, message, conversation id and sources) as when
persistence succeeds, and the request completes with status 200. -/
theorem handler_ignores_save_failure (req : ChatRequest) (fx : Effects)
    (s1 s2 s1' s2' : Bool) (hm : req.message ≠ "") :
    handler req { fx with savePut1 := s1, savePut2 := s2 } =
      handler req { fx with savePut1 := s1', savePut2 := s2' } ∧
    statusOf (handler req fx) = 200 := by
  constructor
  · rfl
  · unfold handler
    rw [if_neg hm]
    rfl

/-- Witness for `handler_ignores_save_failure`: a raising first `put_item`
(`false`) versus both calls succeeding. -/
theorem handler_ignores_save_failure_witness :
    ("hi" : String) ≠ "" ∧
    handler ⟨"hi", none, []⟩
      ⟨Retrieval.unavailable, GenCall.ok "x", true, false, false, "c5"⟩ =
      handler ⟨"hi", none, []⟩
        ⟨Retrieval.unavailable, GenCall.ok "x", true, true, true, "c5"⟩ ∧
    statusOf (handler ⟨"hi", none, []⟩
      ⟨Retrieval.unavailable, GenCall.ok "x", true, true, true, "c5"⟩) = 200 :=
  ⟨by decide,
   (handler_ignores_save_failure ⟨"hi", none, []⟩
     ⟨Retrieval.unavailable, GenCall.ok "x", true, true, true, "c5"⟩
     false false true true (by decide)).1,
   (handler_ignores_save_failure ⟨"hi", none, []⟩
     ⟨Retrieval.unavailable, GenCall.ok "x", true, true, true, "c5"⟩
     false false true true (by decide)).2⟩

/-- C9: both the system prompt and the fallback salutation select exactly one
role variant through the same fixed precedence — instructors first, then
staff, then admins, then the generic default — so membership in several
groups deterministically resolves to one variant. -/
theorem role_precedence (user_groups : List String) (context_docs : List String) :
    build_system_prompt user_groups context_docs =
      (if context_docs = [] then base_prompt else base_prompt ++ rag_guidance) ++
        role_guidance (roleOf user_groups) ∧
    fallback_role user_groups = fallback_role_name (roleOf user_groups) ∧
    (user_groups.contains "instructors" = true →
      roleOf user_groups = Role.instructor) ∧
    (user_groups.contains "instructors" = false →
      user_groups.contains "staff" = true → roleOf user_groups = Role.staff) ∧
    (user_groups.contains "instructors" = false →
      user_groups.contains "staff" = false →
      user_groups.contains "admins" = true → roleOf user_groups = Role.admin) ∧
    (user_groups.contains "instructors" = false →
      user_groups.contains "staff" = false →
      user_groups.contains "admins" = false → roleOf user_groups = Role.generic) := by
  by_cases hI : "instructors" ∈ user_groups <;>
    by_cases hS : "staff" ∈ user_groups <;>
      by_cases hA : "admins" ∈ user_groups <;>
        simp [build_system_prompt, roleOf, role_guidance, fallback_role,
          fallback_role_name, hI, hS, hA]

/-- Witness for `role_precedence`: a user in both `staff` and `admins` gets
the staff variant; adding `instructors` overrides everything. -/
theorem role_precedence_witness :
    roleOf ["staff", "admins"] = Role.staff ∧
    roleOf ["instructors", "staff", "admins"] = Role.instructor ∧
    fallback_role ["staff", "admins"] = fallback_role_name (roleOf ["staff", "admins"]) ∧
    build_system_prompt ["staff", "admins"] [] =
      base_prompt ++ role_guidance (roleOf ["staff", "admins"]) :=
  ⟨(role_precedence ["staff", "admins"] []).2.2.2.1 (by decide) (by decide),
   (role_precedence ["instructors", "staff", "admins"] []).2.2.1 (by decide),
   (role_precedence ["staff", "admins"] []).2.1,
   by
     have h := (role_precedence ["staff", "admins"] []).1
     simpa using h⟩

/-- C10: the chat-path embedding function is total: the model is invoked on
at most the first 8000 characters of the input, a raising call or a response
without an `embedding` field yields the empty vector, and a well-formed
response yields its vector — no outcome propagates an exception. -/
theorem generate_embedding_total (invoke : List Char → EmbedCall) (text : List Char) :
    (embedding_input text).length ≤ 8000 ∧
    embedding_input text = text.take 8000 ∧
    (invoke (embedding_input text) = EmbedCall.raises →
      generate_embedding invoke text = []) ∧
    (invoke (embedding_input text) = EmbedCall.malformed →
      generate_embedding invoke text = []) ∧
    (∀ v, invoke (embedding_input text) = EmbedCall.ok v →
      generate_embedding invoke text = v) := by
  refine ⟨?_, ?_, ?_, ?_, ?_⟩
  · unfold embedding_input
    split
    · rw [List.length_take]; omega
    · omega
  · unfold embedding_input
    split
    · rfl
    · rename_i h
      rw [List.take_of_length_le (by omega)]
  · intro h; unfold generate_embedding; rw [h]
  · intro h; unfold generate_embedding; rw [h]
  · intro v h; unfold generate_embedding; rw [h]

/-- Witness for `generate_embedding_total`: a raising model call on a short
query maps to the empty vector. -/
theorem generate_embedding_total_witness :
    (embedding_input "question".toList).length ≤ 8000 ∧
    (fun _ => EmbedCall.raises) (embedding_input "question".toList) = EmbedCall.raises ∧
    generate_embedding (fun _ => EmbedCall.raises) "question".toList = [] :=
  ⟨(generate_embedding_total (fun _ => EmbedCall.raises) "question".toList).1,
   rfl,
   (generate_embedding_total (fun _ => EmbedCall.raises) "question".toList).2.2.1 rfl⟩

end Chat
